import Mathlib

/-!
Shallow embedding of `netlify/functions/sync-youtube.js` (the scheduled
YouTube-RSS → Webflow-CMS synchronization handler).

The JavaScript handler is a linear pipeline: check three environment
values, page through the CMS collection to collect existing slugs and
video URLs, fetch and parse the RSS feed, then for each entry derive a
slug / canonical URL / thumbnail, skip duplicates, normalize the
description, create the CMS item and publish it.

The embedding models every external interaction (CMS listing pages, RSS
fetch, `Date` parsing, create/publish responses) as components of an
explicit `Env` oracle, and records each outbound HTTP request as an
`Event` in a trace, so that properties about "which requests the run
issues" are statable.  Fallible steps return `Except`: the JS
`try { ... } catch` around the whole run corresponds to the
`Except.error` branch of `processEntries` (the only `throw` reachable
after entry validation is `new Date(bad).toISOString()`).
-/

namespace SyncYT

/-- The ECMAScript whitespace class used by `\s` in the regexes and by
`String.prototype.trim` (WhiteSpace ∪ LineTerminator). -/
def isJsWs (c : Char) : Bool :=
  c == ' ' || c == '\t' || c == '\n' || c == '\r' || c == '\x0b' || c == '\x0c' ||
  c == ' ' || c == ' ' ||
  (decide (' ' ≤ c) && decide (c ≤ ' ')) ||
  c == ' ' || c == ' ' || c == ' ' || c == ' ' ||
  c == '　' || c == '﻿'

/-- JS truthiness of a possibly-absent string (`undefined` and `""` are falsy). -/
def jsTruthy (o : Option String) : Bool :=
  match o with
  | some s => s != ""
  | none => false

/-- JS `a || b` for a possibly-absent string `a` and a string default `b`. -/
def jsOr (o : Option String) (d : String) : String :=
  match o with
  | some s => if s = "" then d else s
  | none => d

/-- Stage `.replace(/\r?\n|\r/g, " ")` of the description sanitization:
each `"\r\n"`, lone `"\r"` or lone `"\n"` becomes a single space. -/
def replNewlines : List Char → List Char
  | [] => []
  | '\r' :: '\n' :: rest => ' ' :: replNewlines rest
  | '\r' :: rest => ' ' :: replNewlines rest
  | '\n' :: rest => ' ' :: replNewlines rest
  | c :: rest => c :: replNewlines rest

/-- Worker for `.replace(/\s+/g, " ")`: the flag records whether the
previous character belonged to a whitespace run already replaced. -/
def collapseAux : Bool → List Char → List Char
  | _, [] => []
  | prevWs, c :: rest =>
    if isJsWs c then
      if prevWs then collapseAux true rest
      else ' ' :: collapseAux true rest
    else c :: collapseAux false rest

/-- Stage `.replace(/\s+/g, " ")`: every maximal run of whitespace becomes one space. -/
def collapseWs (l : List Char) : List Char :=
  collapseAux false l

/-- Leading-whitespace removal (one side of JS `trim`). -/
def trimLeft (l : List Char) : List Char :=
  l.dropWhile isJsWs

/-- Trailing-whitespace removal (the other side of JS `trim`). -/
def trimRight (l : List Char) : List Char :=
  (trimLeft l.reverse).reverse

/-- JS `String.prototype.trim` on character lists. -/
def jsTrimL (l : List Char) : List Char :=
  trimRight (trimLeft l)

/-- JS `String.prototype.trim`. -/
def jsTrim (s : String) : String :=
  String.mk (jsTrimL s.data)

/-- Constant `MAX_LEN = 1000`, the safety cutoff for the single-line description. -/
def MAX_LEN : Nat := 1000

/-- Value `descriptionOneLine`: newlines to spaces, collapse whitespace runs,
then trim. -/
def descCore (l : List Char) : List Char :=
  jsTrimL (collapseWs (replNewlines l))

/-- Value `safeDescription`: truncate `descriptionOneLine` to `MAX_LEN`
characters if it is longer (`.slice(0, MAX_LEN)`). -/
def descCut (l : List Char) : List Char :=
  if (descCore l).length > MAX_LEN then (descCore l).take MAX_LEN else descCore l

/-- The description sanitization of the handler: newlines to spaces,
collapse whitespace runs, trim, then truncate to `MAX_LEN` if longer
(`descriptionOneLine` / `safeDescription` in the source). -/
def normalizeDescription (s : String) : String :=
  String.mk (descCut s.data)

/-- A parsed RSS feed entry, with every field the handler reads; `none`
models an absent (`undefined`) field of the loosely-typed parsed XML. -/
structure FeedEntry where
  videoId : Option String
  title : Option String
  linkHref : Option String
  published : Option String
  mediaDescription : Option String
  mediaThumbUrl : Option String
deriving DecidableEq

/-- One item of a CMS listing page: its top-level `slug` and the
`fieldData["video-url"]` custom field (`none` also covers a non-string
value, which the `typeof` guard rejects). -/
structure PageItem where
  slug : Option String
  videoUrl : Option String
deriving DecidableEq

/-- The response the CMS listing endpoint gives to one page fetch:
a non-success response, or a page of items together with whether
`pagination.nextPage` is non-null. -/
inductive PageResp where
  | fail
  | ok (items : List PageItem) (next : Bool)
deriving DecidableEq

/-- The response to one create request: HTTP status plus the value of
`created?.id || created?.item?.id` from the response body. -/
structure CreateResp where
  status : Nat
  itemId : Option String
deriving DecidableEq

/-- One outbound HTTP request of a run: an inventory page fetch, the RSS
fetch, a create call (with the requested slug, canonical URL, response
status and response item id), or a publish call. -/
inductive Event where
  | inventoryFetch
  | rssFetch
  | create (slug url : String) (status : Nat) (itemId : Option String)
  | publish (itemId : String) (ok : Bool)
deriving DecidableEq

/-- Driver state: the in-memory inventory sets, the number of create and
publish calls issued so far (indexing the response oracles), and the
trace of requests issued so far. -/
structure RunState where
  slugs : List String
  urls : List String
  nCreate : Nat
  nPublish : Nat
  trace : List Event
deriving DecidableEq

/-- The run's environment: the three configuration values, the sequence
of CMS listing page responses the server yields, the parsed RSS feed
(`none` = non-success RSS response, which the handler turns into a
thrown error), the behaviour of `new Date(x).toISOString()` (`none` = it
throws, e.g. on an invalid date), and the create/publish response
oracles indexed by how many such calls were made before. -/
structure Env where
  webflowToken : Option String
  collectionId : Option String
  channelId : Option String
  pages : List PageResp
  rss : Option (List (Option FeedEntry))
  dateISO : Option String → Option String
  createResp : Nat → CreateResp
  publishOk : Nat → Bool

/-- Predicate `resp.ok` of node-fetch: HTTP status in `[200, 300)`. -/
def isOkStatus (n : Nat) : Bool :=
  decide (200 ≤ n) && decide (n < 300)

/-- The truthiness filter `if (!createdId)` applied to
`created?.id || created?.item?.id`. -/
def usableId : Option String → Option String
  | some s => if s = "" then none else some s
  | none => none

/-- Operation `Set.add` on the list model of a JS `Set` of strings. -/
def addSet (l : List String) (x : String) : List String :=
  if x ∈ l then l else l ++ [x]

/-- The slug an inventory item contributes: `if (item.slug) slugs.add(item.slug)`. -/
def itemSlug? (it : PageItem) : Option String :=
  if jsTruthy it.slug then some (it.slug.getD ("")) else none

/-- The URL an inventory item contributes:
`typeof vurl === "string" && vurl.trim()` guards adding `vurl.trim()`. -/
def itemUrl? (it : PageItem) : Option String :=
  match it.videoUrl with
  | some v => if jsTrim v = "" then none else some (jsTrim v)
  | none => none

/-- Fold step accumulating an item's slug into the slug set. -/
def addItemSlug (acc : List String) (it : PageItem) : List String :=
  match itemSlug? it with
  | some s => addSet acc s
  | none => acc

/-- Fold step accumulating an item's video URL into the URL set. -/
def addItemUrl (acc : List String) (it : PageItem) : List String :=
  match itemUrl? it with
  | some u => addSet acc u
  | none => acc

/-- Function `getExistingSlugsAndUrls`: walk the listing pages, accumulating
slugs and URLs; a non-success page response breaks the loop with what
was accumulated so far; otherwise the loop continues while
`pagination.nextPage` is non-null.  Also returns the number of page
fetches issued. -/
def getExisting : List PageResp → List String → List String →
    ((List String × List String) × Nat)
  | [], slugs, urls => ((slugs, urls), 0)
  | PageResp.fail :: _, slugs, urls => ((slugs, urls), 1)
  | PageResp.ok items next :: rest, slugs, urls =>
    let slugs2 := items.foldl addItemSlug slugs
    let urls2 := items.foldl addItemUrl urls
    if next then
      let r := getExisting rest slugs2 urls2
      (r.1, r.2 + 1)
    else ((slugs2, urls2), 1)

/-- Derivation `link = entry?.link?.["@_href"] || (videoId ? watch-URL : "")`. -/
def entryLink (e : FeedEntry) : String :=
  jsOr e.linkHref
    (if jsTruthy e.videoId then
      "https://www.youtube.com/watch?v=" ++ e.videoId.getD ("")
    else (""))

/-- Derivation `thumbUrl = media-thumbnail url || (videoId ? hqdefault-URL : "")`. -/
def entryThumb (e : FeedEntry) : String :=
  jsOr e.mediaThumbUrl
    (if jsTruthy e.videoId then
      "https://i.ytimg.com/vi/" ++ e.videoId.getD ("") ++ "/hqdefault.jpg"
    else (""))

/-- Derivation `slug = "yt-" + videoId`. -/
def entrySlug (e : FeedEntry) : String :=
  "yt-" ++ e.videoId.getD ("")

/-- The `if (!videoId || !title || !link) continue` guard. -/
def entryValid (e : FeedEntry) : Bool :=
  jsTruthy e.videoId && jsTruthy e.title && (entryLink e != "")

/-- One iteration of the driver loop for one (possibly null) feed entry.
`Except.error` models an exception escaping the loop body (only the
`new Date(publishedRaw).toISOString()` of an entry that survived the
guards can throw); `Except.ok` is `continue` / normal completion of the
body. -/
def processEntry (env : Env) (st : RunState) (oe : Option FeedEntry) :
    Except RunState RunState :=
  match oe with
  | none => Except.ok st
  | some e =>
    if !entryValid e then Except.ok st
    else
      let slug := entrySlug e
      let urlKey := jsTrim (entryLink e)
      if slug ∈ st.slugs then Except.ok st
      else if urlKey ∈ st.urls then Except.ok st
      else
        match env.dateISO e.published with
        | none => Except.error st
        | some _ =>
          let r := env.createResp st.nCreate
          let st1 : RunState :=
            { st with
              nCreate := st.nCreate + 1,
              trace := st.trace ++ [Event.create slug urlKey r.status r.itemId] }
          if isOkStatus r.status then
            match usableId r.itemId with
            | none => Except.ok st1
            | some cid =>
              let st2 : RunState :=
                { st1 with
                  slugs := addSet st1.slugs slug,
                  urls := addSet st1.urls urlKey }
              Except.ok
                { st2 with
                  nPublish := st2.nPublish + 1,
                  trace := st2.trace ++ [Event.publish cid (env.publishOk st2.nPublish)] }
          else Except.ok st1

/-- The driver loop over the feed entries; an error aborts the loop and
carries the state at the throw (the JS exception reaches the outer
`catch`). -/
def processEntries (env : Env) (st : RunState) :
    List (Option FeedEntry) → Except RunState RunState
  | [] => Except.ok st
  | oe :: rest =>
    match processEntry env st oe with
    | Except.ok st2 => processEntries env st2 rest
    | Except.error st2 => Except.error st2

/-- The driver state right after the inventory load and the RSS fetch:
inventory sets seeded from `getExisting`, trace holding the inventory
page fetches and the RSS fetch. -/
def initState (env : Env) : RunState :=
  { slugs := (getExisting env.pages [] []).1.1,
    urls := (getExisting env.pages [] []).1.2,
    nCreate := 0,
    nPublish := 0,
    trace := List.replicate (getExisting env.pages [] []).2 Event.inventoryFetch ++
      [Event.rssFetch] }

/-- The whole handler, returning its HTTP status code and the trace of
outbound requests: missing configuration short-circuits with 500 and an
empty trace; a failed RSS fetch is thrown and caught, giving 500 after
the inventory and RSS requests; otherwise the driver runs and an escaped
per-record exception gives 500 while normal completion gives 200. -/
def handler (env : Env) : Nat × List Event :=
  if !(jsTruthy env.webflowToken && jsTruthy env.collectionId &&
      jsTruthy env.channelId) then
    (500, [])
  else
    match env.rss with
    | none => (500, (initState env).trace)
    | some entries =>
      match processEntries env (initState env) entries with
      | Except.ok st => (200, st.trace)
      | Except.error st => (500, st.trace)

/-- The `(slug, url)` keys of the create calls that returned a success
status and a usable item id — exactly the creates after which the code
reaches the inventory update and the publish call. -/
def createdKeys (tr : List Event) : List (String × String) :=
  tr.filterMap (fun ev =>
    match ev with
    | Event.create s u stt id =>
      if isOkStatus stt && (usableId id).isSome then some (s, u) else none
    | _ => none)

/-- The slugs of all create calls issued, successful or not. -/
def createSlugs (tr : List Event) : List String :=
  tr.filterMap (fun ev =>
    match ev with
    | Event.create s _ _ _ => some s
    | _ => none)

/-- The slugs of the create calls that returned a success (2xx) status —
the creates the CMS reports as having created an item. -/
def okCreateSlugs (tr : List Event) : List String :=
  tr.filterMap (fun ev =>
    match ev with
    | Event.create s _ stt _ => if isOkStatus stt then some s else none
    | _ => none)

/-- The state a driver step or run ends in, whether it completed
normally or threw. -/
def resultState : Except RunState RunState → RunState
  | Except.ok st => st
  | Except.error st => st

/-- No two keys of the list agree on the slug or on the URL. -/
def DistinctKeys (l : List (String × String)) : Prop :=
  l.Pairwise (fun a b => a.1 ≠ b.1 ∧ a.2 ≠ b.2)

/-- Run invariant: every key of a fully successful create (success
status and usable id) is recorded in the inventory sets, and no two such
keys share a slug or a URL. -/
def InvKeys (st : RunState) : Prop :=
  (∀ k ∈ createdKeys st.trace, k.1 ∈ st.slugs ∧ k.2 ∈ st.urls) ∧
    DistinctKeys (createdKeys st.trace)

/-- Run invariant under an always-successful create oracle: every create
call's slug is recorded in the inventory slug set, and no slug is the
subject of two create calls. -/
def InvSlugs (st : RunState) : Prop :=
  (∀ s ∈ createSlugs st.trace, s ∈ st.slugs) ∧ (createSlugs st.trace).Nodup

/-- A well-formed paginated listing: at least one page, every page fetch
succeeds, every page but the last announces a next page, and the last
does not. -/
def chainOk : List PageResp → Bool
  | [PageResp.ok _ next] => !next
  | PageResp.ok _ true :: p :: rest => chainOk (p :: rest)
  | _ => false

/-- The slugs contributed by one listing page. -/
def pageSlugs (p : PageResp) : List String :=
  match p with
  | PageResp.fail => []
  | PageResp.ok items _ => items.filterMap itemSlug?

/-- The video URLs contributed by one listing page. -/
def pageUrls (p : PageResp) : List String :=
  match p with
  | PageResp.fail => []
  | PageResp.ok items _ => items.filterMap itemUrl?

/-- The slugs contributed by a whole listing. -/
def pagesSlugs : List PageResp → List String
  | [] => []
  | p :: rest => pageSlugs p ++ pagesSlugs rest

/-- The video URLs contributed by a whole listing. -/
def pagesUrls : List PageResp → List String
  | [] => []
  | p :: rest => pageUrls p ++ pagesUrls rest

/-- Adjacent characters are not both whitespace. -/
def NoWsPair (a b : Char) : Prop :=
  ¬(isJsWs a = true ∧ isJsWs b = true)

/-- The first character, if any, is not whitespace. -/
def headNotWs (l : List Char) : Prop :=
  ∀ h, l.head? = some h → isJsWs h = false

/-- Every whitespace character of the list is a plain space. -/
def allWsSpace (l : List Char) : Prop :=
  ∀ c ∈ l, isJsWs c = true → c = ' '

/-- Input on which the description transform is not idempotent: 999
characters, a space, and two more characters.  The collapsed and trimmed
form has 1002 characters, so truncation to 1000 cuts right after the
space, and a second application trims that trailing space away. -/
def cexDescription : String :=
  String.mk (List.replicate 999 'a' ++ [' ', 'b', 'b'])

/-- A plain valid feed entry (no explicit link or thumbnail). -/
def entryV : FeedEntry :=
  ⟨some ("vid1"), some ("Title"), none, some ("2024-05-05"), none, none⟩

/-- A valid feed entry whose published field will not parse. -/
def entryBadDate : FeedEntry :=
  ⟨some ("v1"), some ("T1"), none, some ("not-a-date"), none, none⟩

/-- A valid feed entry whose published field parses fine. -/
def entryGood : FeedEntry :=
  ⟨some ("v2"), some ("T2"), none, some ("2024-01-01"), none, none⟩

/-- A feed entry used twice in one feed (same video identifier). -/
def entryDup : FeedEntry :=
  ⟨some ("dup"), some ("Dup"), none, some ("2024-02-02"), none, none⟩

/-- The spec's scenario entry: `videoId="abc123"`, `title="Demo"`, no
explicit link, no thumbnail. -/
def entryC8 : FeedEntry :=
  ⟨some ("abc123"), some ("Demo"), none, some ("2025-01-01"), none, none⟩

/-- The empty driver state. -/
def st0 : RunState := ⟨[], [], 0, 0, []⟩

/-- A driver state whose inventory already contains `entryDup`'s slug. -/
def stDup : RunState := ⟨["yt-dup"], [], 0, 0, []⟩

/-- Environment whose feed repeats `entryDup`; the first create returns
success without a usable item id, the second returns success with one. -/
def envC1 : Env :=
  { webflowToken := some ("t"), collectionId := some ("c"), channelId := some ("y"),
    pages := [],
    rss := some [some entryDup, some entryDup],
    dateISO := fun _ => some ("2024-02-02T00:00:00.000Z"),
    createResp := fun n => if n = 0 then ⟨200, none⟩ else ⟨200, some ("id2")⟩,
    publishOk := fun _ => true }

/-- Environment with a bad-date entry followed by a perfectly good one. -/
def envC3 : Env :=
  { webflowToken := some ("t"), collectionId := some ("c"), channelId := some ("y"),
    pages := [],
    rss := some [some entryBadDate, some entryGood],
    dateISO := fun p =>
      if p = some ("not-a-date") then none else some ("2024-01-01T00:00:00.000Z"),
    createResp := fun _ => ⟨200, some ("item1")⟩,
    publishOk := fun _ => true }

/-- Environment whose feed repeats `entryDup`; the first create fails
(HTTP 500), the second succeeds. -/
def envC4 : Env :=
  { webflowToken := some ("t"), collectionId := some ("c"), channelId := some ("y"),
    pages := [],
    rss := some [some entryDup, some entryDup],
    dateISO := fun _ => some ("2024-02-02T00:00:00.000Z"),
    createResp := fun n => if n = 0 then ⟨500, none⟩ else ⟨200, some ("id2")⟩,
    publishOk := fun _ => true }

/-- Environment whose feed repeats `entryDup`, with an always-successful
create oracle. -/
def envC4w : Env :=
  { webflowToken := some ("t"), collectionId := some ("c"), channelId := some ("y"),
    pages := [],
    rss := some [some entryDup, some entryDup],
    dateISO := fun _ => some ("2024-02-02T00:00:00.000Z"),
    createResp := fun _ => ⟨200, some ("newid")⟩,
    publishOk := fun _ => true }

/-- Environment with all three configuration values absent. -/
def envC5 : Env :=
  { webflowToken := none, collectionId := none, channelId := none,
    pages := [],
    rss := none,
    dateISO := fun _ => none,
    createResp := fun _ => ⟨0, none⟩,
    publishOk := fun _ => false }

/-- Environment whose listing has one good page announcing a next page,
followed by a failing page fetch. -/
def envC6 : Env :=
  { webflowToken := some ("t"), collectionId := some ("c"), channelId := some ("y"),
    pages := [PageResp.ok [⟨some ("s1"), some ("u1")⟩] true, PageResp.fail],
    rss := some [],
    dateISO := fun _ => none,
    createResp := fun _ => ⟨0, none⟩,
    publishOk := fun _ => false }

/-- A well-formed three-page listing. -/
def pagesC7 : List PageResp :=
  [PageResp.ok [⟨some ("a"), some ("ua")⟩] true,
   PageResp.ok [⟨some ("b"), none⟩] true,
   PageResp.ok [⟨none, some ("uc")⟩] false]

/-- Environment whose listing is the three-page `pagesC7`. -/
def envC7 : Env :=
  { webflowToken := some ("t"), collectionId := some ("c"), channelId := some ("y"),
    pages := pagesC7,
    rss := some [],
    dateISO := fun _ => none,
    createResp := fun _ => ⟨0, none⟩,
    publishOk := fun _ => false }

/-- Environment whose create endpoint always answers HTTP 409. -/
def envC9 : Env :=
  { webflowToken := some ("t"), collectionId := some ("c"), channelId := some ("y"),
    pages := [],
    rss := some [some entryV],
    dateISO := fun _ => some ("2024-05-05T00:00:00.000Z"),
    createResp := fun _ => ⟨409, none⟩,
    publishOk := fun _ => true }

/-- Environment whose create endpoint always fails with HTTP 500. -/
def envFail : Env :=
  { webflowToken := some ("t"), collectionId := some ("c"), channelId := some ("y"),
    pages := [],
    rss := some [some entryV],
    dateISO := fun _ => some ("2024-05-05T00:00:00.000Z"),
    createResp := fun _ => ⟨500, none⟩,
    publishOk := fun _ => true }

/-- Environment whose create endpoint answers 201 with no item id. -/
def envNoId : Env :=
  { webflowToken := some ("t"), collectionId := some ("c"), channelId := some ("y"),
    pages := [],
    rss := some [some entryV],
    dateISO := fun _ => some ("2024-05-05T00:00:00.000Z"),
    createResp := fun _ => ⟨201, none⟩,
    publishOk := fun _ => true }

/-- Environment whose create endpoint answers 202 with a usable id. -/
def envOkId : Env :=
  { webflowToken := some ("t"), collectionId := some ("c"), channelId := some ("y"),
    pages := [],
    rss := some [some entryV],
    dateISO := fun _ => some ("2024-05-05T00:00:00.000Z"),
    createResp := fun _ => ⟨202, some ("xid")⟩,
    publishOk := fun _ => false }

/-! ### Lemmas about the description transform -/

theorem replNewlines_eq_self (l : List Char)
    (h : ∀ c ∈ l, c ≠ '\r' ∧ c ≠ '\n') : replNewlines l = l := by
  induction l with
  | nil => rfl
  | cons c rest ih =>
    have hc := h c (List.mem_cons_self c rest)
    have hrest : ∀ d ∈ rest, d ≠ '\r' ∧ d ≠ '\n' :=
      fun d hd => h d (List.mem_cons_of_mem c hd)
    match c, rest with
    | '\r', _ => exact absurd rfl hc.1
    | '\n', _ => exact absurd rfl hc.2
    | c, rest =>
      rw [replNewlines, ih hrest]
      · exact fun r h1 _ => hc.1 h1
      · exact fun h1 => hc.1 h1
      · exact fun h1 => hc.2 h1

theorem mem_collapseAux_ws (l : List Char) :
    ∀ (b : Bool) (c : Char), c ∈ collapseAux b l → isJsWs c = true → c = ' ' := by
  induction l with
  | nil => intro b c hc _; simp [collapseAux] at hc
  | cons d rest ih =>
    intro b c hc hws
    by_cases hd : isJsWs d = true
    · cases b with
      | true =>
        have heq : collapseAux true (d :: rest) = collapseAux true rest := by
          simp [collapseAux, hd]
        rw [heq] at hc
        exact ih true c hc hws
      | false =>
        have heq : collapseAux false (d :: rest) = ' ' :: collapseAux true rest := by
          simp [collapseAux, hd]
        rw [heq] at hc
        rcases List.mem_cons.1 hc with h1 | h1
        · exact h1
        · exact ih true c h1 hws
    · have heq : collapseAux b (d :: rest) = d :: collapseAux false rest := by
        cases b <;> simp [collapseAux, hd]
      rw [heq] at hc
      rcases List.mem_cons.1 hc with h1 | h1
      · subst h1; exact absurd hws hd
      · exact ih false c h1 hws

theorem collapseAux_chain (l : List Char) :
    ∀ b, List.Chain' NoWsPair (collapseAux b l) ∧ headNotWs (collapseAux true l) := by
  induction l with
  | nil => intro b; exact ⟨List.chain'_nil, by intro h hh; simp [collapseAux] at hh⟩
  | cons d rest ih =>
    intro b
    by_cases hd : isJsWs d = true
    · have htrue : collapseAux true (d :: rest) = collapseAux true rest := by
        simp [collapseAux, hd]
      constructor
      · cases b with
        | true => rw [htrue]; exact (ih true).1
        | false =>
          have : collapseAux false (d :: rest) = ' ' :: collapseAux true rest := by
            simp [collapseAux, hd]
          rw [this, List.chain'_cons']
          refine ⟨?_, (ih true).1⟩
          intro x hx
          have hx2 : isJsWs x = false := (ih true).2 x hx
          intro hpair
          rw [hx2] at hpair
          exact Bool.false_ne_true hpair.2
      · rw [htrue]; exact (ih true).2
    · have heq : ∀ b' : Bool, collapseAux b' (d :: rest) = d :: collapseAux false rest := by
        intro b'; cases b' <;> simp [collapseAux, hd]
      constructor
      · rw [heq b, List.chain'_cons']
        refine ⟨?_, (ih false).1⟩
        intro x _
        intro hpair
        exact hd hpair.1
      · rw [heq true]
        intro h hh
        simp only [List.head?_cons, Option.some.injEq] at hh
        subst hh
        simpa using hd

theorem collapseAux_eq_self (l : List Char) :
    ∀ b, allWsSpace l → List.Chain' NoWsPair l → (b = true → headNotWs l) →
      collapseAux b l = l := by
  induction l with
  | nil => intro b _ _ _; rfl
  | cons c rest ih =>
    intro b hws hchain hhead
    have hrestws : allWsSpace rest := fun d hd => hws d (List.mem_cons_of_mem c hd)
    have hrestchain : List.Chain' NoWsPair rest := hchain.tail
    by_cases hc : isJsWs c = true
    · have hcsp : c = ' ' := hws c (List.mem_cons_self c rest) hc
      cases b with
      | true =>
        have h0 := hhead rfl c rfl
        rw [h0] at hc
        exact absurd hc Bool.false_ne_true
      | false =>
        have hresthead : headNotWs rest := by
          intro h hh
          have h1 := (List.chain'_cons'.1 hchain).1 h hh
          by_contra hcon
          exact h1 ⟨hc, by simpa using hcon⟩
        have : collapseAux false (c :: rest) = ' ' :: collapseAux true rest := by
          simp [collapseAux, hc]
        rw [this, ih true hrestws hrestchain (fun _ => hresthead), hcsp]
    · have : collapseAux b (c :: rest) = c :: collapseAux false rest := by
        cases b <;> simp [collapseAux, hc]
      rw [this, ih false hrestws hrestchain (by intro hcon; exact absurd hcon (by simp))]

theorem exists_append_dropWhile (p : Char → Bool) (l : List Char) :
    ∃ t, l = t ++ l.dropWhile p := by
  induction l with
  | nil => exact ⟨[], rfl⟩
  | cons c rest ih =>
    by_cases hc : p c = true
    · rcases ih with ⟨t, ht⟩
      refine ⟨c :: t, ?_⟩
      rw [List.dropWhile_cons, if_pos hc]
      simpa using congrArg (List.cons c) ht
    · refine ⟨[], ?_⟩
      rw [List.dropWhile_cons, if_neg (by simp [hc])]
      rfl

theorem headNotWs_trimLeft (l : List Char) : headNotWs (trimLeft l) := by
  induction l with
  | nil => intro h hh; simp [trimLeft] at hh
  | cons c rest ih =>
    by_cases hc : isJsWs c = true
    · have heq : trimLeft (c :: rest) = trimLeft rest := by
        simp [trimLeft, List.dropWhile_cons, hc]
      rw [heq]; exact ih
    · have heq : trimLeft (c :: rest) = c :: rest := by
        simp [trimLeft, List.dropWhile_cons, hc]
      rw [heq]
      intro h hh
      simp only [List.head?_cons, Option.some.injEq] at hh
      subst hh
      simpa using hc

theorem exists_trimRight_append (l : List Char) : ∃ t, l = trimRight l ++ t := by
  rcases exists_append_dropWhile isJsWs l.reverse with ⟨t, ht⟩
  refine ⟨t.reverse, ?_⟩
  have hl := congrArg List.reverse ht
  rw [List.reverse_reverse, List.reverse_append] at hl
  calc l = (List.dropWhile isJsWs l.reverse).reverse ++ t.reverse := hl
    _ = trimRight l ++ t.reverse := rfl

theorem headNotWs_append_left (l t : List Char) (h : headNotWs (l ++ t)) :
    headNotWs l := by
  cases l with
  | nil => intro x hx; simp at hx
  | cons c rest =>
    intro x hx
    have hx2 : c = x := by simpa using hx
    subst hx2
    exact h c (by simp)

theorem lastNotWs_trimRight (l : List Char) : headNotWs (trimRight l).reverse := by
  have : (trimRight l).reverse = trimLeft l.reverse := by
    simp [trimRight, List.reverse_reverse]
  rw [this]
  exact headNotWs_trimLeft l.reverse

theorem trimLeft_eq_self (l : List Char) (h : headNotWs l) : trimLeft l = l := by
  cases l with
  | nil => rfl
  | cons c rest =>
    have hc : isJsWs c = false := h c rfl
    simp [trimLeft, List.dropWhile_cons, hc]

theorem trimRight_eq_self (l : List Char) (h : headNotWs l.reverse) :
    trimRight l = l := by
  have : trimLeft l.reverse = l.reverse := trimLeft_eq_self l.reverse h
  rw [trimRight, this, List.reverse_reverse]

theorem chain'_dropWhile (p : Char → Bool) (l : List Char)
    (h : List.Chain' NoWsPair l) : List.Chain' NoWsPair (l.dropWhile p) := by
  induction l with
  | nil => exact h
  | cons c rest ih =>
    by_cases hc : p c = true
    · rw [List.dropWhile_cons, if_pos hc]
      exact ih h.tail
    · rw [List.dropWhile_cons, if_neg (by simp [hc])]
      exact h

theorem chain'_append_left (l t : List Char) (h : List.Chain' NoWsPair (l ++ t)) :
    List.Chain' NoWsPair l :=
  (List.chain'_append.1 h).1

theorem mem_trimLeft (l : List Char) (c : Char) (h : c ∈ trimLeft l) : c ∈ l := by
  rcases exists_append_dropWhile isJsWs l with ⟨t, ht⟩
  rw [ht]
  exact List.mem_append_right t h

theorem mem_trimRight (l : List Char) (c : Char) (h : c ∈ trimRight l) : c ∈ l := by
  rcases exists_trimRight_append l with ⟨t, ht⟩
  rw [ht]
  exact List.mem_append_left t h

theorem jsTrimL_props (x : List Char) (hws : allWsSpace x)
    (hchain : List.Chain' NoWsPair x) :
    allWsSpace (jsTrimL x) ∧ List.Chain' NoWsPair (jsTrimL x) ∧
      headNotWs (jsTrimL x) ∧ headNotWs (jsTrimL x).reverse := by
  refine ⟨?_, ?_, ?_, lastNotWs_trimRight (trimLeft x)⟩
  · intro c hc
    exact hws c (mem_trimLeft x c (mem_trimRight (trimLeft x) c hc))
  · rcases exists_trimRight_append (trimLeft x) with ⟨t, ht⟩
    have h1 : List.Chain' NoWsPair (trimLeft x) := chain'_dropWhile isJsWs x hchain
    rw [ht] at h1
    exact chain'_append_left (jsTrimL x) t h1
  · rcases exists_trimRight_append (trimLeft x) with ⟨t, ht⟩
    have h1 : headNotWs (trimLeft x) := headNotWs_trimLeft x
    rw [ht] at h1
    exact headNotWs_append_left (jsTrimL x) t h1

theorem jsTrimL_eq_self (l : List Char) (h1 : headNotWs l)
    (h2 : headNotWs l.reverse) : jsTrimL l = l := by
  rw [jsTrimL, trimLeft_eq_self l h1, trimRight_eq_self l h2]

theorem descCore_props (l : List Char) :
    allWsSpace (descCore l) ∧ List.Chain' NoWsPair (descCore l) ∧
      headNotWs (descCore l) ∧ headNotWs (descCore l).reverse := by
  have hws : allWsSpace (collapseWs (replNewlines l)) :=
    fun c hc => mem_collapseAux_ws (replNewlines l) false c hc
  have hchain : List.Chain' NoWsPair (collapseWs (replNewlines l)) :=
    (collapseAux_chain (replNewlines l) false).1
  exact jsTrimL_props (collapseWs (replNewlines l)) hws hchain

theorem descCore_eq_self (y : List Char) (hws : allWsSpace y)
    (hchain : List.Chain' NoWsPair y) (hhead : headNotWs y)
    (hlast : headNotWs y.reverse) : descCore y = y := by
  have hrn : ∀ c ∈ y, c ≠ '\r' ∧ c ≠ '\n' := by
    intro c hc
    constructor
    · intro hcr
      subst hcr
      have := hws '\r' hc (by decide)
      exact absurd this (by decide)
    · intro hcr
      subst hcr
      have := hws '\n' hc (by decide)
      exact absurd this (by decide)
  have hcoll : collapseWs y = y :=
    collapseAux_eq_self y false hws hchain (fun hcon => absurd hcon Bool.false_ne_true)
  rw [descCore, replNewlines_eq_self y hrn, hcoll, jsTrimL_eq_self y hhead hlast]

/-! ### Lemmas about the driver -/

theorem processEntry_none (env : Env) (st : RunState) :
    processEntry env st none = Except.ok st := rfl

theorem processEntry_invalid (env : Env) (st : RunState) (e : FeedEntry)
    (hv : entryValid e = false) :
    processEntry env st (some e) = Except.ok st := by
  simp [processEntry, hv]

theorem processEntry_dup (env : Env) (st : RunState) (e : FeedEntry)
    (hv : entryValid e = true)
    (hdup : entrySlug e ∈ st.slugs ∨ jsTrim (entryLink e) ∈ st.urls) :
    processEntry env st (some e) = Except.ok st := by
  by_cases hs : entrySlug e ∈ st.slugs
  · simp [processEntry, hv, hs]
  · have hu := hdup.resolve_left hs
    simp [processEntry, hv, hs, hu]

theorem processEntry_dateErr (env : Env) (st : RunState) (e : FeedEntry)
    (hv : entryValid e = true) (hs : entrySlug e ∉ st.slugs)
    (hu : jsTrim (entryLink e) ∉ st.urls)
    (hd : env.dateISO e.published = none) :
    processEntry env st (some e) = Except.error st := by
  simp [processEntry, hv, hs, hu, hd]

theorem processEntry_createFail (env : Env) (st : RunState) (e : FeedEntry)
    (iso : String) (hv : entryValid e = true) (hs : entrySlug e ∉ st.slugs)
    (hu : jsTrim (entryLink e) ∉ st.urls)
    (hd : env.dateISO e.published = some iso)
    (hst : isOkStatus (env.createResp st.nCreate).status = false) :
    processEntry env st (some e) = Except.ok
      { st with
        nCreate := st.nCreate + 1,
        trace := st.trace ++ [Event.create (entrySlug e) (jsTrim (entryLink e))
          (env.createResp st.nCreate).status (env.createResp st.nCreate).itemId] } := by
  simp [processEntry, hv, hs, hu, hd, hst]

theorem processEntry_createNoId (env : Env) (st : RunState) (e : FeedEntry)
    (iso : String) (hv : entryValid e = true) (hs : entrySlug e ∉ st.slugs)
    (hu : jsTrim (entryLink e) ∉ st.urls)
    (hd : env.dateISO e.published = some iso)
    (hst : isOkStatus (env.createResp st.nCreate).status = true)
    (hid : usableId (env.createResp st.nCreate).itemId = none) :
    processEntry env st (some e) = Except.ok
      { st with
        nCreate := st.nCreate + 1,
        trace := st.trace ++ [Event.create (entrySlug e) (jsTrim (entryLink e))
          (env.createResp st.nCreate).status (env.createResp st.nCreate).itemId] } := by
  simp [processEntry, hv, hs, hu, hd, hst, hid]

theorem processEntry_createOk (env : Env) (st : RunState) (e : FeedEntry)
    (iso cid : String) (hv : entryValid e = true) (hs : entrySlug e ∉ st.slugs)
    (hu : jsTrim (entryLink e) ∉ st.urls)
    (hd : env.dateISO e.published = some iso)
    (hst : isOkStatus (env.createResp st.nCreate).status = true)
    (hid : usableId (env.createResp st.nCreate).itemId = some cid) :
    processEntry env st (some e) = Except.ok
      { slugs := addSet st.slugs (entrySlug e),
        urls := addSet st.urls (jsTrim (entryLink e)),
        nCreate := st.nCreate + 1,
        nPublish := st.nPublish + 1,
        trace := (st.trace ++ [Event.create (entrySlug e) (jsTrim (entryLink e))
          (env.createResp st.nCreate).status (env.createResp st.nCreate).itemId]) ++
          [Event.publish cid (env.publishOk st.nPublish)] } := by
  simp [processEntry, hv, hs, hu, hd, hst, hid]

/-- Exhaustive case description of one driver step: it either leaves the
state unchanged (null entry, invalid entry, duplicate), throws on a
date-parse failure leaving the state unchanged, issues a create call
that does not reach the publish step (failure status or no usable id,
inventory unchanged), or issues a create call followed by a publish call
with the inventory extended in between. -/
theorem processEntry_spec (env : Env) (st : RunState) (oe : Option FeedEntry) :
    processEntry env st oe = Except.ok st ∨
    (∃ e, oe = some e ∧ env.dateISO e.published = none ∧
      processEntry env st oe = Except.error st) ∨
    (∃ e, oe = some e ∧ entrySlug e ∉ st.slugs ∧ jsTrim (entryLink e) ∉ st.urls ∧
      ((isOkStatus (env.createResp st.nCreate).status = false ∨
          usableId (env.createResp st.nCreate).itemId = none) ∧
        processEntry env st oe = Except.ok
          { st with
            nCreate := st.nCreate + 1,
            trace := st.trace ++ [Event.create (entrySlug e) (jsTrim (entryLink e))
              (env.createResp st.nCreate).status (env.createResp st.nCreate).itemId] } ∨
       (∃ cid, isOkStatus (env.createResp st.nCreate).status = true ∧
          usableId (env.createResp st.nCreate).itemId = some cid ∧
          processEntry env st oe = Except.ok
            { slugs := addSet st.slugs (entrySlug e),
              urls := addSet st.urls (jsTrim (entryLink e)),
              nCreate := st.nCreate + 1,
              nPublish := st.nPublish + 1,
              trace := (st.trace ++ [Event.create (entrySlug e) (jsTrim (entryLink e))
                (env.createResp st.nCreate).status (env.createResp st.nCreate).itemId]) ++
                [Event.publish cid (env.publishOk st.nPublish)] }))) := by
  cases oe with
  | none => exact Or.inl (processEntry_none env st)
  | some e =>
    by_cases hv : entryValid e = true
    · by_cases hs : entrySlug e ∈ st.slugs
      · exact Or.inl (processEntry_dup env st e hv (Or.inl hs))
      · by_cases hu : jsTrim (entryLink e) ∈ st.urls
        · exact Or.inl (processEntry_dup env st e hv (Or.inr hu))
        · cases hd : env.dateISO e.published with
          | none =>
            exact Or.inr (Or.inl ⟨e, rfl, hd,
              processEntry_dateErr env st e hv hs hu hd⟩)
          | some iso =>
            by_cases hst : isOkStatus (env.createResp st.nCreate).status = true
            · cases hid : usableId (env.createResp st.nCreate).itemId with
              | none =>
                exact Or.inr (Or.inr ⟨e, rfl, hs, hu, Or.inl ⟨Or.inr rfl,
                  processEntry_createNoId env st e iso hv hs hu hd hst hid⟩⟩)
              | some cid =>
                exact Or.inr (Or.inr ⟨e, rfl, hs, hu, Or.inr ⟨cid, hst, rfl,
                  processEntry_createOk env st e iso cid hv hs hu hd hst hid⟩⟩)
            · have hst2 : isOkStatus (env.createResp st.nCreate).status = false := by
                simpa using hst
              exact Or.inr (Or.inr ⟨e, rfl, hs, hu, Or.inl ⟨Or.inl hst2,
                processEntry_createFail env st e iso hv hs hu hd hst2⟩⟩)
    · have hv2 : entryValid e = false := by simpa using hv
      exact Or.inl (processEntry_invalid env st e hv2)

theorem mem_addSet (l : List String) (x y : String) :
    y ∈ addSet l x ↔ y ∈ l ∨ y = x := by
  by_cases hx : x ∈ l
  · rw [addSet, if_pos hx]
    constructor
    · exact Or.inl
    · rintro (h | h)
      · exact h
      · subst h; exact hx
  · rw [addSet, if_neg hx]
    simp

theorem mem_addSet_self (l : List String) (x : String) : x ∈ addSet l x :=
  (mem_addSet l x x).mpr (Or.inr rfl)

theorem mem_addSet_of_mem (l : List String) (x y : String) (h : y ∈ l) :
    y ∈ addSet l x :=
  (mem_addSet l x y).mpr (Or.inl h)

theorem createdKeys_append (a b : List Event) :
    createdKeys (a ++ b) = createdKeys a ++ createdKeys b :=
  List.filterMap_append a b _

theorem createSlugs_append (a b : List Event) :
    createSlugs (a ++ b) = createSlugs a ++ createSlugs b :=
  List.filterMap_append a b _

theorem okCreateSlugs_append (a b : List Event) :
    okCreateSlugs (a ++ b) = okCreateSlugs a ++ okCreateSlugs b :=
  List.filterMap_append a b _

theorem createdKeys_single_fail (s u : String) (stt : Nat) (id : Option String)
    (h : isOkStatus stt = false ∨ usableId id = none) :
    createdKeys [Event.create s u stt id] = [] := by
  rcases h with h | h <;> simp [createdKeys, h]

theorem createdKeys_single_ok (s u : String) (stt : Nat) (id : Option String)
    (cid : String) (hst : isOkStatus stt = true) (hid : usableId id = some cid) :
    createdKeys [Event.create s u stt id] = [(s, u)] := by
  simp [createdKeys, hst, hid]

theorem createdKeys_single_pub (id : String) (ok : Bool) :
    createdKeys [Event.publish id ok] = [] := rfl

theorem createSlugs_single (s u : String) (stt : Nat) (id : Option String) :
    createSlugs [Event.create s u stt id] = [s] := rfl

theorem createSlugs_single_pub (id : String) (ok : Bool) :
    createSlugs [Event.publish id ok] = [] := rfl

theorem invKeys_of (st st' : RunState) (h : InvKeys st)
    (hsl : st'.slugs = st.slugs) (hur : st'.urls = st.urls)
    (htr : createdKeys st'.trace = createdKeys st.trace) : InvKeys st' := by
  constructor
  · intro k hk
    rw [htr] at hk
    rw [hsl, hur]
    exact h.1 k hk
  · exact htr.symm ▸ h.2

theorem invKeys_step (env : Env) (st : RunState) (oe : Option FeedEntry)
    (h : InvKeys st) : InvKeys (resultState (processEntry env st oe)) := by
  rcases processEntry_spec env st oe with heq | ⟨e, _, _, heq⟩ | ⟨e, hoe, hs, hu, hcase⟩
  · rw [heq]; exact h
  · rw [heq]; exact h
  · rcases hcase with ⟨hfail, heq⟩ | ⟨cid, hst, hid, heq⟩
    · rw [heq]
      simp only [resultState]
      exact invKeys_of st _ h rfl rfl
        (by rw [createdKeys_append, createdKeys_single_fail _ _ _ _ hfail,
          List.append_nil])
    · rw [heq]
      simp only [resultState]
      have hck : createdKeys ((st.trace ++ [Event.create (entrySlug e)
          (jsTrim (entryLink e)) (env.createResp st.nCreate).status
          (env.createResp st.nCreate).itemId]) ++
            [Event.publish cid (env.publishOk st.nPublish)]) =
          createdKeys st.trace ++ [(entrySlug e, jsTrim (entryLink e))] := by
        rw [createdKeys_append, createdKeys_append,
          createdKeys_single_ok _ _ _ _ _ hst hid, createdKeys_single_pub,
          List.append_nil]
      constructor
      · intro k hk
        have hk2 : k ∈ createdKeys st.trace ++ [(entrySlug e, jsTrim (entryLink e))] := by
          rw [← hck]; exact hk
        show k.1 ∈ addSet st.slugs (entrySlug e) ∧
          k.2 ∈ addSet st.urls (jsTrim (entryLink e))
        rcases List.mem_append.1 hk2 with hk3 | hk3
        · have hold := h.1 k hk3
          exact ⟨mem_addSet_of_mem _ _ _ hold.1, mem_addSet_of_mem _ _ _ hold.2⟩
        · have hk4 : k = (entrySlug e, jsTrim (entryLink e)) := by simpa using hk3
          subst hk4
          exact ⟨mem_addSet_self _ _, mem_addSet_self _ _⟩
      · show DistinctKeys (createdKeys ((st.trace ++ [_]) ++ [_]))
        rw [hck, DistinctKeys, List.pairwise_append]
        refine ⟨h.2, List.pairwise_singleton _ _, ?_⟩
        intro a ha b hb
        have hb2 : b = (entrySlug e, jsTrim (entryLink e)) := by simpa using hb
        subst hb2
        have ha2 := h.1 a ha
        constructor
        · intro hcon
          apply hs
          have hcon2 : a.1 = entrySlug e := hcon
          rw [← hcon2]
          exact ha2.1
        · intro hcon
          apply hu
          have hcon2 : a.2 = jsTrim (entryLink e) := hcon
          rw [← hcon2]
          exact ha2.2

theorem invKeys_run (env : Env) :
    ∀ (es : List (Option FeedEntry)) (st : RunState), InvKeys st →
      InvKeys (resultState (processEntries env st es)) := by
  intro es
  induction es with
  | nil => intro st h; exact h
  | cons oe rest ih =>
    intro st h
    have hstep := invKeys_step env st oe h
    cases hpe : processEntry env st oe with
    | ok st1 =>
      rw [hpe] at hstep
      simp only [processEntries, hpe]
      exact ih st1 hstep
    | error st1 =>
      rw [hpe] at hstep
      simp only [processEntries, hpe]
      exact hstep

theorem invSlugs_step (env : Env) (st : RunState) (oe : Option FeedEntry)
    (hsucc : ∀ n, isOkStatus (env.createResp n).status = true ∧
      (usableId (env.createResp n).itemId).isSome = true)
    (h : InvSlugs st) : InvSlugs (resultState (processEntry env st oe)) := by
  rcases processEntry_spec env st oe with heq | ⟨e, _, _, heq⟩ | ⟨e, hoe, hs, hu, hcase⟩
  · rw [heq]; exact h
  · rw [heq]; exact h
  · rcases hcase with ⟨hfail, heq⟩ | ⟨cid, hst, hid, heq⟩
    · rcases hfail with hf | hf
      · have := (hsucc st.nCreate).1
        rw [hf] at this
        exact absurd this Bool.false_ne_true
      · have := (hsucc st.nCreate).2
        rw [hf] at this
        exact absurd this (by decide)
    · rw [heq]
      simp only [resultState]
      have hck : createSlugs ((st.trace ++ [Event.create (entrySlug e)
          (jsTrim (entryLink e)) (env.createResp st.nCreate).status
          (env.createResp st.nCreate).itemId]) ++
            [Event.publish cid (env.publishOk st.nPublish)]) =
          createSlugs st.trace ++ [entrySlug e] := by
        rw [createSlugs_append, createSlugs_append, createSlugs_single,
          createSlugs_single_pub, List.append_nil]
      constructor
      · intro s hsmem
        have hs2 : s ∈ createSlugs st.trace ++ [entrySlug e] := by
          rw [← hck]; exact hsmem
        show s ∈ addSet st.slugs (entrySlug e)
        rcases List.mem_append.1 hs2 with hs3 | hs3
        · exact mem_addSet_of_mem _ _ _ (h.1 s hs3)
        · have hs4 : s = entrySlug e := by simpa using hs3
          subst hs4
          exact mem_addSet_self _ _
      · show ((createSlugs ((st.trace ++ [_]) ++ [_]))).Nodup
        rw [hck, List.nodup_append]
        refine ⟨h.2, List.nodup_singleton _, ?_⟩
        exact List.disjoint_singleton.2 (fun hmem => hs (h.1 _ hmem))

theorem invSlugs_run (env : Env)
    (hsucc : ∀ n, isOkStatus (env.createResp n).status = true ∧
      (usableId (env.createResp n).itemId).isSome = true) :
    ∀ (es : List (Option FeedEntry)) (st : RunState), InvSlugs st →
      InvSlugs (resultState (processEntries env st es)) := by
  intro es
  induction es with
  | nil => intro st h; exact h
  | cons oe rest ih =>
    intro st h
    have hstep := invSlugs_step env st oe hsucc h
    cases hpe : processEntry env st oe with
    | ok st1 =>
      rw [hpe] at hstep
      simp only [processEntries, hpe]
      exact ih st1 hstep
    | error st1 =>
      rw [hpe] at hstep
      simp only [processEntries, hpe]
      exact hstep

theorem trace_mono_step (env : Env) (st : RunState) (oe : Option FeedEntry) :
    ∃ t, (resultState (processEntry env st oe)).trace = st.trace ++ t := by
  rcases processEntry_spec env st oe with heq | ⟨e, _, _, heq⟩ | ⟨e, hoe, hs, hu, hcase⟩
  · rw [heq]; exact ⟨[], by simp [resultState]⟩
  · rw [heq]; exact ⟨[], by simp [resultState]⟩
  · rcases hcase with ⟨hfail, heq⟩ | ⟨cid, hst, hid, heq⟩
    · rw [heq]
      exact ⟨_, rfl⟩
    · rw [heq]
      simp only [resultState]
      exact ⟨_, (List.append_assoc _ _ _)⟩

theorem trace_mono_run (env : Env) :
    ∀ (es : List (Option FeedEntry)) (st : RunState),
      ∃ t, (resultState (processEntries env st es)).trace = st.trace ++ t := by
  intro es
  induction es with
  | nil => intro st; exact ⟨[], (List.append_nil _).symm⟩
  | cons oe rest ih =>
    intro st
    obtain ⟨t1, ht1⟩ := trace_mono_step env st oe
    cases hpe : processEntry env st oe with
    | ok st1 =>
      rw [hpe] at ht1
      obtain ⟨t2, ht2⟩ := ih st1
      refine ⟨t1 ++ t2, ?_⟩
      simp only [processEntries, hpe]
      rw [ht2]
      simp only [resultState] at ht1
      rw [ht1, List.append_assoc]
    | error st1 =>
      rw [hpe] at ht1
      refine ⟨t1, ?_⟩
      simp only [processEntries, hpe]
      simp only [resultState] at ht1
      exact ht1

theorem processEntries_no_throw (env : Env)
    (hd : ∀ p, (env.dateISO p).isSome = true) :
    ∀ (es : List (Option FeedEntry)) (st : RunState),
      ∃ st2, processEntries env st es = Except.ok st2 := by
  intro es
  induction es with
  | nil => intro st; exact ⟨st, rfl⟩
  | cons oe rest ih =>
    intro st
    have hok : ∃ st1, processEntry env st oe = Except.ok st1 := by
      rcases processEntry_spec env st oe with heq | ⟨e, hoe, hnone, heq⟩ |
        ⟨e, hoe, hs, hu, hcase⟩
      · exact ⟨st, heq⟩
      · have := hd e.published
        rw [hnone] at this
        exact absurd this (by decide)
      · rcases hcase with ⟨_, heq⟩ | ⟨cid, _, _, heq⟩
        · exact ⟨_, heq⟩
        · exact ⟨_, heq⟩
    obtain ⟨st1, h1⟩ := hok
    obtain ⟨st2, h2⟩ := ih st1
    exact ⟨st2, by simp only [processEntries, h1]; exact h2⟩

theorem handler_of_run (env : Env) (entries : List (Option FeedEntry))
    (h1 : jsTruthy env.webflowToken = true) (h2 : jsTruthy env.collectionId = true)
    (h3 : jsTruthy env.channelId = true) (hrss : env.rss = some entries) :
    handler env =
      (match processEntries env (initState env) entries with
        | Except.ok st => (200, st.trace)
        | Except.error st => (500, st.trace)) := by
  simp [handler, h1, h2, h3, hrss]

theorem createdKeys_inv_rss (n : Nat) :
    createdKeys (List.replicate n Event.inventoryFetch ++ [Event.rssFetch]) = [] := by
  induction n with
  | zero => rfl
  | succ k ih =>
    rw [List.replicate_succ, List.cons_append]
    exact ih

theorem createSlugs_inv_rss (n : Nat) :
    createSlugs (List.replicate n Event.inventoryFetch ++ [Event.rssFetch]) = [] := by
  induction n with
  | zero => rfl
  | succ k ih =>
    rw [List.replicate_succ, List.cons_append]
    exact ih

theorem invKeys_initState (env : Env) : InvKeys (initState env) := by
  constructor
  · intro k hk
    rw [show (initState env).trace = List.replicate (getExisting env.pages [] []).2
      Event.inventoryFetch ++ [Event.rssFetch] from rfl, createdKeys_inv_rss] at hk
    simp at hk
  · rw [show (initState env).trace = List.replicate (getExisting env.pages [] []).2
      Event.inventoryFetch ++ [Event.rssFetch] from rfl, createdKeys_inv_rss]
    exact List.Pairwise.nil

theorem invSlugs_initState (env : Env) : InvSlugs (initState env) := by
  constructor
  · intro s hsmem
    rw [show (initState env).trace = List.replicate (getExisting env.pages [] []).2
      Event.inventoryFetch ++ [Event.rssFetch] from rfl, createSlugs_inv_rss] at hsmem
    simp at hsmem
  · rw [show (initState env).trace = List.replicate (getExisting env.pages [] []).2
      Event.inventoryFetch ++ [Event.rssFetch] from rfl, createSlugs_inv_rss]
    exact List.Pairwise.nil

theorem mem_foldl_addItemSlug (items : List PageItem) :
    ∀ (acc : List String) (x : String),
      x ∈ items.foldl addItemSlug acc ↔ x ∈ acc ∨ x ∈ items.filterMap itemSlug? := by
  induction items with
  | nil => intro acc x; simp
  | cons it rest ih =>
    intro acc x
    rw [List.foldl_cons, List.filterMap_cons]
    cases hit : itemSlug? it with
    | none =>
      rw [show addItemSlug acc it = acc from by simp [addItemSlug, hit]]
      exact ih acc x
    | some s =>
      rw [show addItemSlug acc it = addSet acc s from by simp [addItemSlug, hit]]
      rw [ih (addSet acc s) x]
      simp only [mem_addSet, List.mem_cons]
      tauto

theorem mem_foldl_addItemUrl (items : List PageItem) :
    ∀ (acc : List String) (x : String),
      x ∈ items.foldl addItemUrl acc ↔ x ∈ acc ∨ x ∈ items.filterMap itemUrl? := by
  induction items with
  | nil => intro acc x; simp
  | cons it rest ih =>
    intro acc x
    rw [List.foldl_cons, List.filterMap_cons]
    cases hit : itemUrl? it with
    | none =>
      rw [show addItemUrl acc it = acc from by simp [addItemUrl, hit]]
      exact ih acc x
    | some s =>
      rw [show addItemUrl acc it = addSet acc s from by simp [addItemUrl, hit]]
      rw [ih (addSet acc s) x]
      simp only [mem_addSet, List.mem_cons]
      tauto

theorem getExisting_chain (pages : List PageResp) :
    chainOk pages = true →
      ∀ (s u : List String),
        (∀ x, x ∈ (getExisting pages s u).1.1 ↔ x ∈ s ∨ x ∈ pagesSlugs pages) ∧
        (∀ x, x ∈ (getExisting pages s u).1.2 ↔ x ∈ u ∨ x ∈ pagesUrls pages) ∧
        (getExisting pages s u).2 = pages.length := by
  induction pages using chainOk.induct with
  | case1 items next =>
    intro hc s u
    have hnext : next = false := by
      rw [chainOk] at hc
      simpa using hc
    subst hnext
    refine ⟨?_, ?_, rfl⟩
    · intro x
      rw [show (getExisting [PageResp.ok items false] s u).1.1 =
        items.foldl addItemSlug s from rfl]
      rw [mem_foldl_addItemSlug]
      simp [pagesSlugs, pageSlugs]
    · intro x
      rw [show (getExisting [PageResp.ok items false] s u).1.2 =
        items.foldl addItemUrl u from rfl]
      rw [mem_foldl_addItemUrl]
      simp [pagesUrls, pageUrls]
  | case2 items p rest ih =>
    intro hc s u
    have hc2 : chainOk (p :: rest) = true := by
      rw [chainOk] at hc
      exact hc
    obtain ⟨ihs, ihu, ihn⟩ := ih hc2 (items.foldl addItemSlug s) (items.foldl addItemUrl u)
    refine ⟨?_, ?_, ?_⟩
    · intro x
      rw [show (getExisting (PageResp.ok items true :: p :: rest) s u).1.1 =
        (getExisting (p :: rest) (items.foldl addItemSlug s)
          (items.foldl addItemUrl u)).1.1 from rfl]
      rw [ihs x, mem_foldl_addItemSlug]
      simp only [pagesSlugs, pageSlugs, List.mem_append]
      tauto
    · intro x
      rw [show (getExisting (PageResp.ok items true :: p :: rest) s u).1.2 =
        (getExisting (p :: rest) (items.foldl addItemSlug s)
          (items.foldl addItemUrl u)).1.2 from rfl]
      rw [ihu x, mem_foldl_addItemUrl]
      simp only [pagesUrls, pageUrls, List.mem_append]
      tauto
    · rw [show (getExisting (PageResp.ok items true :: p :: rest) s u).2 =
        (getExisting (p :: rest) (items.foldl addItemSlug s)
          (items.foldl addItemUrl u)).2 + 1 from rfl]
      rw [ihn]
      rfl
  | case3 t h1 h2 =>
    intro hc s u
    exfalso
    rw [chainOk] at hc
    · exact Bool.false_ne_true hc
    · exact h1
    · exact h2

/-! ### Claim C2 -/

set_option maxRecDepth 100000 in
/-- Claim C2 counterexample: the description transform is NOT idempotent
on every input.  On 999 characters followed by a space and two more
characters, the collapsed and trimmed form has 1002 characters, the
truncation to 1000 ends right after the space, and the second
application trims that now-trailing space away, giving a 999-character
result. -/
theorem claim_C2_counterexample :
    normalizeDescription (normalizeDescription cexDescription) ≠
      normalizeDescription cexDescription := by
  decide

/-- Claim C2 as amended: the transform (collapse line breaks and
whitespace runs to single spaces, trim, truncate to 1000) is idempotent
on every input whose collapsed-and-trimmed form is at most 1000
characters long, i.e. whenever the truncation does not actually cut.
(In general it is not idempotent: when the cut falls right after a
space, the second application trims the trailing space — see the
counterexample.) -/
theorem claim_C2 (s : String)
    (h : (descCore s.data).length ≤ MAX_LEN) :
    normalizeDescription (normalizeDescription s) = normalizeDescription s := by
  have h1 : descCut s.data = descCore s.data := by
    rw [descCut, if_neg (by omega)]
  have hrep : normalizeDescription s = String.mk (descCore s.data) := by
    rw [normalizeDescription, h1]
  obtain ⟨hws, hchain, hhead, hlast⟩ := descCore_props s.data
  have hfix : descCore (descCore s.data) = descCore s.data :=
    descCore_eq_self (descCore s.data) hws hchain hhead hlast
  rw [hrep, normalizeDescription]
  have hdata : (String.mk (descCore s.data)).data = descCore s.data := rfl
  rw [hdata, descCut, hfix, if_neg (by omega)]

/-- Witness for Claim C2 at the spec's own scenario string
`"Line one\nLine two   three"`. -/
theorem claim_C2_witness :
    normalizeDescription (normalizeDescription ("Line one\nLine two   three")) =
      normalizeDescription ("Line one\nLine two   three") :=
  claim_C2 ("Line one\nLine two   three") (by decide)

/-! ### Claim C1 -/

/-- Claim C1 counterexample: the run CAN issue two create calls that the
CMS answers with a success (2xx) status for the same slug.  In `envC1`
the feed repeats one video; the first create returns 200 but its
response carries no usable item id, so the code logs and skips WITHOUT
adding the slug/URL to the inventory, and the second occurrence triggers
a second create.  Both creates are reported successful by the server
(the source's own log line for 2xx is "Created item"), so the run
created two CMS items sharing the slug "yt-dup", against the claim's
"consequently" clause. -/
theorem claim_C1_counterexample :
    okCreateSlugs (handler envC1).2 = ["yt-dup", "yt-dup"] ∧
      ¬(okCreateSlugs (handler envC1).2).Nodup := by
  constructor
  · decide
  · decide

/-- Claim C1 as amended: (1) unchanged — a record whose slug is already
in the inventory slug set, or whose canonical URL is already in the
inventory URL set, is skipped with no create call and processing
continues with the state untouched; (2) the consequent holds for the
creates that succeed AND return a usable item id: among those, no two
share a slug and no two share a canonical URL (a 2xx create whose
response lacks a usable id is not recorded in the inventory, so its key
can be created again — see the counterexample). -/
theorem claim_C1 :
    (∀ (env : Env) (st : RunState) (e : FeedEntry), entryValid e = true →
      (entrySlug e ∈ st.slugs ∨ jsTrim (entryLink e) ∈ st.urls) →
      processEntry env st (some e) = Except.ok st) ∧
    (∀ env : Env, DistinctKeys (createdKeys (handler env).2)) := by
  constructor
  · exact fun env st e hv hdup => processEntry_dup env st e hv hdup
  · intro env
    cases hcfg : !(jsTruthy env.webflowToken && jsTruthy env.collectionId &&
        jsTruthy env.channelId) with
    | true =>
      have hh : handler env = (500, []) := by
        simp [handler, hcfg]
      rw [hh]
      exact List.Pairwise.nil
    | false =>
      cases hrss : env.rss with
      | none =>
        have hh : handler env = (500, (initState env).trace) := by
          simp [handler, hcfg, hrss]
        rw [hh]
        rw [show (initState env).trace =
          List.replicate (getExisting env.pages [] []).2 Event.inventoryFetch ++
            [Event.rssFetch] from rfl, createdKeys_inv_rss]
        exact List.Pairwise.nil
      | some entries =>
        have hrun := invKeys_run env entries (initState env) (invKeys_initState env)
        cases hpe : processEntries env (initState env) entries with
        | ok st2 =>
          have hh : handler env = (200, st2.trace) := by
            simp [handler, hcfg, hrss, hpe]
          rw [hh]
          rw [hpe] at hrun
          exact hrun.2
        | error st2 =>
          have hh : handler env = (500, st2.trace) := by
            simp [handler, hcfg, hrss, hpe]
          rw [hh]
          rw [hpe] at hrun
          exact hrun.2

/-- Witness for Claim C1: a duplicate-slug record is skipped with the
state untouched, and the fully-successful creates of a whole run have
pairwise distinct slugs and URLs. -/
theorem claim_C1_witness :
    processEntry envC1 stDup (some entryDup) = Except.ok stDup ∧
      DistinctKeys (createdKeys (handler envC4w).2) :=
  ⟨claim_C1.1 envC1 stDup entryDup (by decide) (Or.inl (by decide)),
   claim_C1.2 envC4w⟩

/-! ### Claim C3 -/

/-- Claim C3 counterexample: in `envC3` the first feed entry's published
field does not parse (`new Date(...).toISOString()` throws) while the
second entry is perfectly valid; the exception propagates to the
handler's outer catch, so the whole run returns 500 and no create call
is ever issued — the remaining record is NOT processed, against the
claim that the failure stays confined to that record. -/
theorem claim_C3_counterexample :
    handler envC3 = (500, [Event.rssFetch]) ∧
      createSlugs (handler envC3).2 = [] ∧ entryValid entryGood = true := by
  refine ⟨?_, ?_, ?_⟩ <;> decide

/-- Claim C3 as amended: a feed entry that passes the field guards and
the dedupe checks but whose published field fails to parse throws inside
the loop body; the exception aborts the loop (the remaining entries are
not processed) and is caught only by the whole-run catch, which turns
the run into a 500 failure. -/
theorem claim_C3 :
    (∀ (env : Env) (st : RunState) (e : FeedEntry)
      (rest : List (Option FeedEntry)), entryValid e = true →
      entrySlug e ∉ st.slugs → jsTrim (entryLink e) ∉ st.urls →
      env.dateISO e.published = none →
      processEntries env st (some e :: rest) = Except.error st) ∧
    (∀ (env : Env) (entries : List (Option FeedEntry)) (st2 : RunState),
      jsTruthy env.webflowToken = true → jsTruthy env.collectionId = true →
      jsTruthy env.channelId = true → env.rss = some entries →
      processEntries env (initState env) entries = Except.error st2 →
      handler env = (500, st2.trace)) := by
  constructor
  · intro env st e rest hv hs hu hd
    simp only [processEntries, processEntry_dateErr env st e hv hs hu hd]
  · intro env entries st2 h1 h2 h3 hrss hpe
    simp [handler, h1, h2, h3, hrss, hpe]

/-- Witness for Claim C3 at the concrete two-entry environment. -/
theorem claim_C3_witness :
    processEntries envC3 (initState envC3) [some entryBadDate, some entryGood] =
        Except.error (initState envC3) ∧
      handler envC3 = (500, (initState envC3).trace) :=
  ⟨claim_C3.1 envC3 (initState envC3) entryBadDate [some entryGood]
      (by decide) (by decide) (by decide) (by decide),
   claim_C3.2 envC3 [some entryBadDate, some entryGood] (initState envC3)
      (by decide) (by decide) (by decide) rfl
      (claim_C3.1 envC3 (initState envC3) entryBadDate [some entryGood]
        (by decide) (by decide) (by decide) (by decide))⟩

/-! ### Claim C4 -/

/-- Claim C4 counterexample: with two entries sharing the video
identifier "dup", if the first create call fails (HTTP 500) the slug is
NOT added to the in-memory inventory, so the second entry triggers a
second create call: the run makes two create calls, not at most one. -/
theorem claim_C4_counterexample :
    createSlugs (handler envC4).2 = ["yt-dup", "yt-dup"] := by
  decide

/-- Claim C4 as amended: provided every create call succeeds with a
usable item id (as in the claim's own mechanism, where the first entry
IS created), no slug is ever the subject of two create calls in one run
— in particular a feed with two entries sharing a video identifier
yields at most one create call for that identifier.  Without that
proviso the claim fails: a failed first create leaves the inventory
unchanged and the duplicate entry triggers a second create call. -/
theorem claim_C4 (env : Env)
    (hsucc : ∀ n, isOkStatus (env.createResp n).status = true ∧
      (usableId (env.createResp n).itemId).isSome = true) :
    (createSlugs (handler env).2).Nodup ∧
      ∀ s, List.count s (createSlugs (handler env).2) ≤ 1 := by
  have main : (createSlugs (handler env).2).Nodup := by
    cases hcfg : !(jsTruthy env.webflowToken && jsTruthy env.collectionId &&
        jsTruthy env.channelId) with
    | true =>
      have hh : handler env = (500, []) := by
        simp [handler, hcfg]
      rw [hh]
      exact List.Pairwise.nil
    | false =>
      cases hrss : env.rss with
      | none =>
        have hh : handler env = (500, (initState env).trace) := by
          simp [handler, hcfg, hrss]
        rw [hh]
        rw [show (initState env).trace =
          List.replicate (getExisting env.pages [] []).2 Event.inventoryFetch ++
            [Event.rssFetch] from rfl, createSlugs_inv_rss]
        exact List.Pairwise.nil
      | some entries =>
        have hrun := invSlugs_run env hsucc entries (initState env)
          (invSlugs_initState env)
        cases hpe : processEntries env (initState env) entries with
        | ok st2 =>
          have hh : handler env = (200, st2.trace) := by
            simp [handler, hcfg, hrss, hpe]
          rw [hh]
          rw [hpe] at hrun
          exact hrun.2
        | error st2 =>
          have hh : handler env = (500, st2.trace) := by
            simp [handler, hcfg, hrss, hpe]
          rw [hh]
          rw [hpe] at hrun
          exact hrun.2
  exact ⟨main, fun s => List.nodup_iff_count_le_one.mp main s⟩

/-- Witness for Claim C4: in `envC4w` the feed repeats the same video
and every create succeeds, so only one create call is made. -/
theorem claim_C4_witness :
    (createSlugs (handler envC4w).2).Nodup ∧
      ∀ s, List.count s (createSlugs (handler envC4w).2) ≤ 1 :=
  claim_C4 envC4w (fun _ => ⟨rfl, rfl⟩)

/-! ### Claim C5 -/

/-- Claim C5: if any one of the three configuration values (CMS token,
collection id, channel id) is absent or empty, the handler returns the
failure status 500 with an empty request trace — no HTTP request of any
kind is issued. -/
theorem claim_C5 (env : Env)
    (h : jsTruthy env.webflowToken = false ∨ jsTruthy env.collectionId = false ∨
      jsTruthy env.channelId = false) :
    handler env = (500, []) := by
  rcases h with h | h | h <;> simp [handler, h]

/-- Witness for Claim C5 with all three environment values absent. -/
theorem claim_C5_witness : handler envC5 = (500, []) :=
  claim_C5 envC5 (Or.inl (by decide))

/-! ### Claim C6 -/

/-- Claim C6: a failing page fetch terminates pagination and the loader
returns exactly what the successfully fetched pages before it
accumulated; and the failure is not fatal — the handler still proceeds
to the RSS fetch and completes the run (status 200 on an empty feed)
whatever the listing pages look like. -/
theorem claim_C6 :
    (∀ (pfx rest : List PageResp) (s u : List String),
      (∀ p ∈ pfx, ∃ items, p = PageResp.ok items true) →
      (getExisting (pfx ++ PageResp.fail :: rest) s u).1 =
        (getExisting pfx s u).1) ∧
    (∀ env : Env, jsTruthy env.webflowToken = true →
      jsTruthy env.collectionId = true → jsTruthy env.channelId = true →
      env.rss = some [] → handler env = (200, (initState env).trace)) := by
  constructor
  · intro pfx
    induction pfx with
    | nil => intro rest s u _; rfl
    | cons p pfx2 ih =>
      intro rest s u hall
      obtain ⟨items, rfl⟩ := hall p (List.mem_cons_self p pfx2)
      have hall2 : ∀ q ∈ pfx2, ∃ items2, q = PageResp.ok items2 true :=
        fun q hq => hall q (List.mem_cons_of_mem _ hq)
      rw [show (getExisting ((PageResp.ok items true :: pfx2) ++
          PageResp.fail :: rest) s u).1 =
        (getExisting (pfx2 ++ PageResp.fail :: rest)
          (items.foldl addItemSlug s) (items.foldl addItemUrl u)).1 from rfl]
      rw [show (getExisting (PageResp.ok items true :: pfx2) s u).1 =
        (getExisting pfx2 (items.foldl addItemSlug s)
          (items.foldl addItemUrl u)).1 from rfl]
      exact ih rest _ _ hall2
  · intro env h1 h2 h3 hrss
    simp [handler, h1, h2, h3, hrss, processEntries]

/-- Witness for Claim C6: one good page then a failing fetch; the loader
keeps the first page's slug and URL, and the run still returns 200. -/
theorem claim_C6_witness :
    (getExisting ([PageResp.ok [⟨some ("s1"), some ("u1")⟩] true] ++
        PageResp.fail :: []) [] []).1 =
      (getExisting [PageResp.ok [⟨some ("s1"), some ("u1")⟩] true] [] []).1 ∧
    handler envC6 = (200, (initState envC6).trace) :=
  ⟨claim_C6.1 [PageResp.ok [⟨some ("s1"), some ("u1")⟩] true] [] [] []
      (by
        intro p hp
        rw [List.mem_singleton] at hp
        exact ⟨[⟨some ("s1"), some ("u1")⟩], hp⟩),
   claim_C6.2 envC6 (by decide) (by decide) (by decide) rfl⟩

/-! ### Claim C7 -/

/-- Claim C7: on a well-formed listing (every fetch succeeds, every page
but the last has a next-page link, the last has none) the loader visits
every page (fetch count = page count) and returns exactly the union of
the pages' slugs and of their video URLs; and in any run that reaches
the driver, all the inventory page fetches and the RSS fetch precede
every driver request in the trace. -/
theorem claim_C7 :
    (∀ pages : List PageResp, chainOk pages = true →
      (∀ x, x ∈ (getExisting pages [] []).1.1 ↔ x ∈ pagesSlugs pages) ∧
      (∀ x, x ∈ (getExisting pages [] []).1.2 ↔ x ∈ pagesUrls pages) ∧
      (getExisting pages [] []).2 = pages.length) ∧
    (∀ (env : Env) (entries : List (Option FeedEntry)),
      jsTruthy env.webflowToken = true → jsTruthy env.collectionId = true →
      jsTruthy env.channelId = true → env.rss = some entries →
      ∃ t, (handler env).2 =
        List.replicate (getExisting env.pages [] []).2 Event.inventoryFetch ++
          Event.rssFetch :: t) := by
  constructor
  · intro pages hc
    obtain ⟨hs, hu, hn⟩ := getExisting_chain pages hc [] []
    refine ⟨?_, ?_, hn⟩
    · intro x
      rw [hs x]
      simp
    · intro x
      rw [hu x]
      simp
  · intro env entries h1 h2 h3 hrss
    obtain ⟨t, ht⟩ := trace_mono_run env entries (initState env)
    refine ⟨t, ?_⟩
    have hini : (initState env).trace =
        List.replicate (getExisting env.pages [] []).2 Event.inventoryFetch ++
          [Event.rssFetch] := rfl
    rw [handler_of_run env entries h1 h2 h3 hrss]
    cases hpe : processEntries env (initState env) entries with
    | ok st2 =>
      rw [hpe] at ht
      simp only [resultState] at ht
      show st2.trace =
        List.replicate (getExisting env.pages [] []).2 Event.inventoryFetch ++
          Event.rssFetch :: t
      rw [ht, hini, List.append_assoc]
      rfl
    | error st2 =>
      rw [hpe] at ht
      simp only [resultState] at ht
      show st2.trace =
        List.replicate (getExisting env.pages [] []).2 Event.inventoryFetch ++
          Event.rssFetch :: t
      rw [ht, hini, List.append_assoc]
      rfl

/-- Witness for Claim C7 at the three-page listing `pagesC7`. -/
theorem claim_C7_witness :
    ((∀ x, x ∈ (getExisting pagesC7 [] []).1.1 ↔ x ∈ pagesSlugs pagesC7) ∧
     (∀ x, x ∈ (getExisting pagesC7 [] []).1.2 ↔ x ∈ pagesUrls pagesC7) ∧
     (getExisting pagesC7 [] []).2 = pagesC7.length) ∧
    ∃ t, (handler envC7).2 =
      List.replicate (getExisting envC7.pages [] []).2 Event.inventoryFetch ++
        Event.rssFetch :: t :=
  ⟨claim_C7.1 pagesC7 (by decide),
   claim_C7.2 envC7 [] (by decide) (by decide) (by decide) rfl⟩

/-! ### Claim C8 -/

/-- Claim C8: for a feed entry with `videoId="abc123"`, `title="Demo"`,
no explicit link and no thumbnail, the derived slug is "yt-abc123", the
derived canonical URL key is "https://www.youtube.com/watch?v=abc123",
and the derived thumbnail URL is
"https://i.ytimg.com/vi/abc123/hqdefault.jpg". -/
theorem claim_C8 :
    entrySlug entryC8 = "yt-abc123" ∧
    entryLink entryC8 = "https://www.youtube.com/watch?v=abc123" ∧
    jsTrim (entryLink entryC8) = "https://www.youtube.com/watch?v=abc123" ∧
    entryThumb entryC8 = "https://i.ytimg.com/vi/abc123/hqdefault.jpg" := by
  refine ⟨?_, ?_, ?_, ?_⟩ <;> decide

/-! ### Claim C9 -/

/-- Claim C9: a create call answered with HTTP 409 falls into the
non-success branch: the record's step completes normally with exactly
the one create request appended to the trace — no publish call, no
inventory change — and the loop moves on; and any run that reaches the
driver and parses all its dates still reports overall success (200). -/
theorem claim_C9 :
    (∀ (env : Env) (st : RunState) (e : FeedEntry) (iso : String),
      entryValid e = true → entrySlug e ∉ st.slugs →
      jsTrim (entryLink e) ∉ st.urls → env.dateISO e.published = some iso →
      (env.createResp st.nCreate).status = 409 →
      processEntry env st (some e) = Except.ok
        { st with
          nCreate := st.nCreate + 1,
          trace := st.trace ++ [Event.create (entrySlug e) (jsTrim (entryLink e))
            409 (env.createResp st.nCreate).itemId] }) ∧
    (∀ (env : Env) (entries : List (Option FeedEntry)),
      jsTruthy env.webflowToken = true → jsTruthy env.collectionId = true →
      jsTruthy env.channelId = true → env.rss = some entries →
      (∀ p, (env.dateISO p).isSome = true) →
      (handler env).1 = 200) := by
  constructor
  · intro env st e iso hv hs hu hd h409
    have hst : isOkStatus (env.createResp st.nCreate).status = false := by
      rw [h409]
      decide
    have hstep := processEntry_createFail env st e iso hv hs hu hd hst
    rw [h409] at hstep
    exact hstep
  · intro env entries h1 h2 h3 hrss hdate
    obtain ⟨st2, hpe⟩ := processEntries_no_throw env hdate entries (initState env)
    rw [handler_of_run env entries h1 h2 h3 hrss, hpe]

/-- Witness for Claim C9: the 409-answering environment `envC9`. -/
theorem claim_C9_witness :
    processEntry envC9 st0 (some entryV) = Except.ok
      { st0 with
        nCreate := st0.nCreate + 1,
        trace := st0.trace ++ [Event.create (entrySlug entryV)
          (jsTrim (entryLink entryV)) 409 (envC9.createResp st0.nCreate).itemId] } ∧
    (handler envC9).1 = 200 :=
  ⟨claim_C9.1 envC9 st0 entryV ("2024-05-05T00:00:00.000Z")
      (by decide) (by decide) (by decide) rfl rfl,
   claim_C9.2 envC9 [some entryV] (by decide) (by decide) (by decide) rfl
      (fun _ => rfl)⟩

/-! ### Claim C10 -/

/-- Claim C10: a create that fails, or succeeds without a usable item
id, leaves the inventory sets untouched and issues no publish call; a
create that succeeds with a usable id extends both inventory sets and
only then issues the publish call. -/
theorem claim_C10 :
    (∀ (env : Env) (st : RunState) (e : FeedEntry) (iso : String),
      entryValid e = true → entrySlug e ∉ st.slugs →
      jsTrim (entryLink e) ∉ st.urls → env.dateISO e.published = some iso →
      isOkStatus (env.createResp st.nCreate).status = false →
      processEntry env st (some e) = Except.ok
        { st with
          nCreate := st.nCreate + 1,
          trace := st.trace ++ [Event.create (entrySlug e) (jsTrim (entryLink e))
            (env.createResp st.nCreate).status (env.createResp st.nCreate).itemId] }) ∧
    (∀ (env : Env) (st : RunState) (e : FeedEntry) (iso : String),
      entryValid e = true → entrySlug e ∉ st.slugs →
      jsTrim (entryLink e) ∉ st.urls → env.dateISO e.published = some iso →
      isOkStatus (env.createResp st.nCreate).status = true →
      usableId (env.createResp st.nCreate).itemId = none →
      processEntry env st (some e) = Except.ok
        { st with
          nCreate := st.nCreate + 1,
          trace := st.trace ++ [Event.create (entrySlug e) (jsTrim (entryLink e))
            (env.createResp st.nCreate).status (env.createResp st.nCreate).itemId] }) ∧
    (∀ (env : Env) (st : RunState) (e : FeedEntry) (iso cid : String),
      entryValid e = true → entrySlug e ∉ st.slugs →
      jsTrim (entryLink e) ∉ st.urls → env.dateISO e.published = some iso →
      isOkStatus (env.createResp st.nCreate).status = true →
      usableId (env.createResp st.nCreate).itemId = some cid →
      processEntry env st (some e) = Except.ok
        { slugs := addSet st.slugs (entrySlug e),
          urls := addSet st.urls (jsTrim (entryLink e)),
          nCreate := st.nCreate + 1,
          nPublish := st.nPublish + 1,
          trace := (st.trace ++ [Event.create (entrySlug e) (jsTrim (entryLink e))
            (env.createResp st.nCreate).status (env.createResp st.nCreate).itemId]) ++
            [Event.publish cid (env.publishOk st.nPublish)] }) :=
  ⟨fun env st e iso hv hs hu hd hst =>
      processEntry_createFail env st e iso hv hs hu hd hst,
   fun env st e iso hv hs hu hd hst hid =>
      processEntry_createNoId env st e iso hv hs hu hd hst hid,
   fun env st e iso cid hv hs hu hd hst hid =>
      processEntry_createOk env st e iso cid hv hs hu hd hst hid⟩

/-- Witness for Claim C10: the three concrete environments whose create
endpoint fails, succeeds with no id, and succeeds with an id. -/
theorem claim_C10_witness :
    processEntry envFail st0 (some entryV) = Except.ok
      { st0 with
        nCreate := st0.nCreate + 1,
        trace := st0.trace ++ [Event.create (entrySlug entryV)
          (jsTrim (entryLink entryV)) (envFail.createResp st0.nCreate).status
          (envFail.createResp st0.nCreate).itemId] } ∧
    processEntry envNoId st0 (some entryV) = Except.ok
      { st0 with
        nCreate := st0.nCreate + 1,
        trace := st0.trace ++ [Event.create (entrySlug entryV)
          (jsTrim (entryLink entryV)) (envNoId.createResp st0.nCreate).status
          (envNoId.createResp st0.nCreate).itemId] } ∧
    processEntry envOkId st0 (some entryV) = Except.ok
      { slugs := addSet st0.slugs (entrySlug entryV),
        urls := addSet st0.urls (jsTrim (entryLink entryV)),
        nCreate := st0.nCreate + 1,
        nPublish := st0.nPublish + 1,
        trace := (st0.trace ++ [Event.create (entrySlug entryV)
          (jsTrim (entryLink entryV)) (envOkId.createResp st0.nCreate).status
          (envOkId.createResp st0.nCreate).itemId]) ++
          [Event.publish ("xid") (envOkId.publishOk st0.nPublish)] } :=
  ⟨claim_C10.1 envFail st0 entryV ("2024-05-05T00:00:00.000Z")
      (by decide) (by decide) (by decide) rfl (by decide),
   claim_C10.2.1 envNoId st0 entryV ("2024-05-05T00:00:00.000Z")
      (by decide) (by decide) (by decide) rfl (by decide) (by decide),
   claim_C10.2.2 envOkId st0 entryV ("2024-05-05T00:00:00.000Z") ("xid")
      (by decide) (by decide) (by decide) rfl (by decide) (by decide)⟩

end SyncYT
